import Mathlib

/-!
Verification of the protocol-translation and streaming-relay engine of the
claude-code-to-codex proxy, as a shallow embedding of its TypeScript source
(src/translator.ts, src/proxy.ts, src/oauth.ts, src/config.ts).

Conventions of the embedding:
- TypeScript optional fields become `Option`; a missing field is `none`.
- JavaScript truthiness on strings is modelled explicitly: the empty string
  is falsy, every other string is truthy; arrays are always truthy.
- Floating point sampling parameters (temperature, top_p) are carried
  opaquely as `Rat`: the code only copies them verbatim, never computes.
- Network and file I/O become explicit parameters (parsed bodies, byte
  reads, refresh outcomes), so every function is pure and executable.
-/

set_option autoImplicit false

/-! ### Data model: Anthropic (source protocol) side, from translator.ts -/

/-- Role of an Anthropic message, from the AnthropicMessage interface. -/
inductive AnthropicRole
  | user
  | assistant
deriving DecidableEq

/-- Type tag of an Anthropic content block, from AnthropicContentBlock. -/
inductive AnthropicBlockType
  | text
  | image
  | tool_use
  | tool_result
deriving DecidableEq

/-- An Anthropic content block. Only the `type` and `text` fields are ever
read by the translator (the image / tool fields are dropped), so only those
are carried. -/
structure AnthropicContentBlock where
  type : AnthropicBlockType
  text : Option String := none
deriving DecidableEq

/-- Message content: a plain string or a list of typed blocks. -/
inductive AnthropicContent
  | str (s : String)
  | blocks (bs : List AnthropicContentBlock)
deriving DecidableEq

/-- One role-tagged Anthropic message. -/
structure AnthropicMessage where
  role : AnthropicRole
  content : AnthropicContent
deriving DecidableEq

/-- The Anthropic request body (Source Request). Tool declarations are never
read by the translator (the translation is commented out in the source), so
they are not carried. -/
structure AnthropicRequest where
  model : String
  messages : List AnthropicMessage
  max_tokens : Option Nat := none
  temperature : Option Rat := none
  top_p : Option Rat := none
  top_k : Option Nat := none
  stream : Option Bool := none
  system : Option String := none
deriving DecidableEq

/-! ### JavaScript object property access

Bracket access on a plain object literal consults the prototype chain: a
key that is no own property but names an Object.prototype member yields
the inherited member, a truthy function or object value, not undefined.
This matters for MODEL_MAP[anthropicModel] below, whose key is caller
controlled. -/

/-- The runtime value of a property read on a string-valued record: an own
data property (a string), an inherited Object.prototype member (a function
or object, identified here by its name; always truthy, never a string), or
undefined. -/
inductive JsPropValue
  | str (s : String)
  | inherited (name : String)
  | undefined
deriving DecidableEq

/-- The string-keyed own properties of Object.prototype, which every plain
object literal inherits. -/
def OBJECT_PROTOTYPE_KEYS : List String :=
  [ ("constructor"), ("hasOwnProperty"), ("isPrototypeOf")
  , ("propertyIsEnumerable"), ("toLocaleString"), ("toString"), ("valueOf")
  , ("__proto__"), ("__defineGetter__"), ("__defineSetter__")
  , ("__lookupGetter__"), ("__lookupSetter__") ]

/-- obj[key] on an object literal with string values: an own key yields its
string, a miss falls through to the Object.prototype member of that name
when one exists, otherwise undefined. -/
def jsRecordGet (obj : List (String × String)) (key : String) : JsPropValue :=
  match obj.lookup key with
  | some v => JsPropValue.str v
  | none =>
    if key ∈ OBJECT_PROTOTYPE_KEYS then JsPropValue.inherited key
    else JsPropValue.undefined

/-- JavaScript truthiness of such a value: a string is truthy when
non-empty, an inherited function or object is always truthy, undefined is
falsy. -/
def jsTruthy : JsPropValue → Bool
  | JsPropValue.str s => !(s == "")
  | JsPropValue.inherited _ => true
  | JsPropValue.undefined => false

/-! ### Data model: OpenAI / Codex (target protocol) side -/

/-- Role of an OpenAI message. -/
inductive OpenAIRole
  | system
  | user
  | assistant
  | tool
deriving DecidableEq

/-- Type tag of an OpenAI content block. -/
inductive OpenAIBlockType
  | text
  | image_url
deriving DecidableEq

/-- An OpenAI content block; only `type` and `text` are read. -/
structure OpenAIContentBlock where
  type : OpenAIBlockType
  text : Option String := none
deriving DecidableEq

/-- OpenAI message content: a plain string or a list of blocks. -/
inductive OpenAIContent
  | str (s : String)
  | blocks (bs : List OpenAIContentBlock)
deriving DecidableEq

/-- One OpenAI chat message (role and content; the optional tool fields are
never produced by this translator). -/
structure OpenAIMessage where
  role : OpenAIRole
  content : OpenAIContent
deriving DecidableEq

/-- The OpenAI request produced by the translator (Target Request). Fields
the translator never sets (tools, tool_choice, user) are not carried. -/
structure OpenAIRequest where
  model : JsPropValue
  messages : List OpenAIMessage
  max_tokens : Option Nat := none
  temperature : Option Rat := none
  top_p : Option Rat := none
  stream : Option Bool := none
  instructions : Option String := none
  store : Option Bool := none
deriving DecidableEq

/-- Upstream finish reason (the non-null values of the union type). -/
inductive FinishReason
  | stop
  | length
  | tool_calls
deriving DecidableEq

/-- Usage counters of an OpenAI response. -/
structure OpenAIUsage where
  prompt_tokens : Nat
  completion_tokens : Nat
  total_tokens : Nat
deriving DecidableEq

/-- One choice of a non-streaming OpenAI response. -/
structure OpenAIChoice where
  index : Nat := 0
  message : OpenAIMessage
  finish_reason : Option FinishReason := none
deriving DecidableEq

/-- A non-streaming OpenAI response body. -/
structure OpenAIResponse where
  id : String := ""
  created : Nat := 0
  model : String := ""
  choices : List OpenAIChoice
  usage : Option OpenAIUsage := none
deriving DecidableEq

/-- The delta part of a streaming choice (Partial of OpenAIMessage; only
`content` is ever read). -/
structure StreamDelta where
  content : Option OpenAIContent := none
deriving DecidableEq

/-- One choice of a streaming chunk. -/
structure StreamChoice where
  index : Nat := 0
  delta : StreamDelta
  finish_reason : Option FinishReason := none
deriving DecidableEq

/-- One parsed upstream streaming chunk (the constant `object` tag is not
carried). -/
structure OpenAIStreamChunk where
  id : String := ""
  created : Nat := 0
  model : String := ""
  choices : List StreamChoice
deriving DecidableEq

/-! ### Model mapping, from translator.ts MODEL_MAP / mapModel -/

/-- The static model table, as an association list in source order. -/
def MODEL_MAP : List (String × String) :=
  [ (("claude-sonnet-4-5-20250929"), ("gpt-5.2-codex"))
  , (("claude-opus-4-5-20250929"), ("gpt-5.2-codex"))
  , (("claude-haiku-4-5-20250929"), ("gpt-5.1-codex-mini"))
  , (("claude-3-5-sonnet-20241022"), ("gpt-5.2-codex"))
  , (("claude-3-opus-20240229"), ("gpt-5.2-codex"))
  , (("claude-3-haiku-20240307"), ("gpt-5.1-codex-mini"))
  , (("default"), ("gpt-5.2-codex")) ]

/-- MODEL_MAP[anthropicModel] || MODEL_MAP.default, at runtime: the
bracket read consults the prototype chain (jsRecordGet) and the or-else
takes the left value whenever it is truthy — so an inherited
Object.prototype member, being truthy, is returned as is. -/
def mapModel (anthropicModel : String) : JsPropValue :=
  let v := jsRecordGet MODEL_MAP anthropicModel
  if jsTruthy v then v else jsRecordGet MODEL_MAP ("default")

/-! ### Request translation, from translateAnthropicToOpenAI -/

/-- The fixed Codex instruction string appended by the relay. -/
def CODEX_SYSTEM_INSTRUCTIONS : String :=
  "You are a coding agent running in a terminal-based coding assistant. You are expected to be precise, safe, and helpful."

/-- msg.role === "assistant" ? "assistant" : "user". -/
def mapRole : AnthropicRole → OpenAIRole
  | AnthropicRole.assistant => OpenAIRole.assistant
  | AnthropicRole.user => OpenAIRole.user

/-- Per-message translation: a plain string is copied verbatim; a block
list keeps only the text-typed blocks, joining their texts (a missing text
field joins as the empty string, as Array.prototype.join does). -/
def translateAnthropicMessage (msg : AnthropicMessage) : OpenAIMessage :=
  match msg.content with
  | AnthropicContent.str s => ⟨mapRole msg.role, OpenAIContent.str s⟩
  | AnthropicContent.blocks bs =>
      ⟨mapRole msg.role,
       OpenAIContent.str (String.join
         ((bs.filter (fun b => b.type == AnthropicBlockType.text)).map
           (fun b => b.text.getD "")))⟩

/-- translateAnthropicToOpenAI. The system instruction is inserted first
when truthy (JavaScript: present and non-empty); `stream` defaults to true
via nullish coalescing; `store` is forced false; optional sampling
parameters are copied exactly when present; the instruction string is
attached when truthy. -/
def translateAnthropicToOpenAI (anthropicReq : AnthropicRequest)
    (codexInstructions : Option String) : OpenAIRequest :=
  let systemMessages : List OpenAIMessage :=
    match anthropicReq.system with
    | some s => if s = "" then [] else [⟨OpenAIRole.system, OpenAIContent.str s⟩]
    | none => []
  { model := mapModel anthropicReq.model
  , messages := systemMessages ++ anthropicReq.messages.map translateAnthropicMessage
  , max_tokens := anthropicReq.max_tokens
  , temperature := anthropicReq.temperature
  , top_p := anthropicReq.top_p
  , stream := some (anthropicReq.stream.getD true)
  , instructions :=
      match codexInstructions with
      | some s => if s = "" then none else some s
      | none => none
  , store := some false }

/-! ### Non-streaming response translation, from translateOpenAIToAnthropic -/

/-- The Anthropic stop reason union. -/
inductive StopReason
  | end_turn
  | max_tokens
  | stop_sequence
deriving DecidableEq

/-- Renamed usage counters. -/
structure AnthropicUsage where
  input_tokens : Nat
  output_tokens : Nat
deriving DecidableEq

/-- Result record of translateOpenAIToAnthropic. -/
structure AnthropicNonStreamResult where
  content : List AnthropicContentBlock
  stop_reason : Option StopReason
  usage : Option AnthropicUsage := none
deriving DecidableEq

/-- translateOpenAIToAnthropic: first choice only; zero choices yield empty
content and no stop reason; string content wraps as one text block; block
content keeps text blocks only (block.text || ""); the finish reason maps
stop to end_turn, length to max_tokens, anything else to none; usage
counters are renamed when present. -/
def translateOpenAIToAnthropic (openAIResp : OpenAIResponse) : AnthropicNonStreamResult :=
  match openAIResp.choices.head? with
  | none => ⟨[], none, none⟩
  | some choice =>
    let content : List AnthropicContentBlock :=
      match choice.message.content with
      | OpenAIContent.str s => [⟨AnthropicBlockType.text, some s⟩]
      | OpenAIContent.blocks bs =>
          (bs.filter (fun b => b.type == OpenAIBlockType.text)).map
            (fun b => ⟨AnthropicBlockType.text, some (b.text.getD "")⟩)
    let stop_reason : Option StopReason :=
      match choice.finish_reason with
      | some FinishReason.stop => some StopReason.end_turn
      | some FinishReason.length => some StopReason.max_tokens
      | _ => none
    { content := content
    , stop_reason := stop_reason
    , usage := openAIResp.usage.map (fun u => ⟨u.prompt_tokens, u.completion_tokens⟩) }

/-! ### Streaming chunk translation, from translateOpenAIStreamChunk -/

/-- The signal returned to the relay for one parsed chunk. -/
inductive StreamSignal
  | contentBlockDelta (text : String)
  | messageStop
deriving DecidableEq

/-- JavaScript truthiness of a content value: a string is truthy when
non-empty, an array is always truthy. -/
def contentTruthy : OpenAIContent → Bool
  | OpenAIContent.str s => !(s == "")
  | OpenAIContent.blocks _ => true

/-- translateOpenAIStreamChunk: first choice only (none means no signal); a
truthy finish reason signals turn completion with no payload; otherwise a
truthy delta content signals a text delta (non-string content degrades to
the empty text); anything else is silently ignored. -/
def translateOpenAIStreamChunk (chunk : OpenAIStreamChunk) : Option StreamSignal :=
  match chunk.choices.head? with
  | none => none
  | some choice =>
    if choice.finish_reason.isSome then
      some StreamSignal.messageStop
    else
      match choice.delta.content with
      | some c =>
          if contentTruthy c then
            some (StreamSignal.contentBlockDelta
              (match c with
               | OpenAIContent.str s => s
               | OpenAIContent.blocks _ => ""))
          else none
      | none => none

/-! ### Stream Relay, from proxy.ts forwardToCodex (streaming path) -/

/-- One event written to the caller on the event-stream response. Each
constructor is one res.write of createAnthropicStreamEvent; the payload
fields that vary are carried (delta text, message_delta stop reason and
output token placeholder), constant payload fields are not. -/
inductive AnthropicEvent
  | messageStart
  | contentBlockStart
  | contentBlockDelta (text : String)
  | contentBlockStop
  | messageDelta (stop_reason : String) (output_tokens : Nat)
  | messageStop
deriving DecidableEq

/-- The writes the data handler performs for one parsed upstream chunk: a
content_block_delta event exactly when the translated signal is a text
delta with truthy (non-empty) text; every other signal, including the
turn-complete signal, writes nothing. -/
def chunkWrites (chunk : OpenAIStreamChunk) : List AnthropicEvent :=
  match translateOpenAIStreamChunk chunk with
  | some (StreamSignal.contentBlockDelta t) =>
      if t = "" then [] else [AnthropicEvent.contentBlockDelta t]
  | _ => []

/-- The two events written before any upstream data arrives. -/
def openingEvents : List AnthropicEvent :=
  [AnthropicEvent.messageStart, AnthropicEvent.contentBlockStart]

/-- The fixed closing sequence written by the end handler: the message_delta
write hardcodes stop_reason "end_turn" and the usage placeholder 0. -/
def closingEvents : List AnthropicEvent :=
  [ AnthropicEvent.contentBlockStop
  , AnthropicEvent.messageDelta ("end_turn") 0
  , AnthropicEvent.messageStop ]

/-- The full event sequence the streaming relay writes for a given sequence
of parsed upstream chunks (the data lines that decoded to a chunk), ended
by the upstream end event. -/
def relayStreamEvents (chunks : List OpenAIStreamChunk) : List AnthropicEvent :=
  openingEvents ++ chunks.flatMap chunkWrites ++ closingEvents

/-! ### Byte-level line buffering of the data handler

The handler keeps a string buffer; each transport read arrives as raw
bytes and is decoded to text per read (buffer += chunk.toString(), a
stateless UTF-8 decode of that one chunk with U+FFFD replacement for
malformed or truncated sequences); the decoded text is appended to the
buffer, the buffer is split on the newline character, the final (possibly
incomplete) segment stays in the buffer and the complete lines are
processed. Bytes are lists of Nat (values 0 to 255), decoded text is a
list of characters. -/

/-- Prepend a character to the first segment (the non-newline branch of the
splitter). -/
def consFst (c : Char) : List (List Char) → List (List Char)
  | [] => [[c]]
  | l :: ls => (c :: l) :: ls

/-- Merge a segment onto the head of a segment list (used to state how
splitting distributes over append). -/
def mergeFst (x : List Char) : List (List Char) → List (List Char)
  | [] => [x]
  | l :: ls => (x ++ l) :: ls

/-- buffer.split("\n"): the segments between newline characters, always at
least one segment. -/
def splitNl : List Char → List (List Char)
  | [] => [[]]
  | c :: cs => if c = '\n' then [] :: splitNl cs else consFst c (splitNl cs)

/-- All segments except the trailing one (what remains after lines.pop). -/
def initSegs : List (List Char) → List (List Char)
  | [] => []
  | [_] => []
  | l :: l2 :: ls => l :: initSegs (l2 :: ls)

/-- The trailing segment (what lines.pop returns, or the empty segment). -/
def lastSeg : List (List Char) → List Char
  | [] => []
  | [l] => l
  | _ :: l2 :: ls => lastSeg (l2 :: ls)

/-- One data event, after the per-read decode: append the decoded text of
the read to the buffer, split, pop the trailing segment back into the
buffer, return the complete lines. -/
def feedRead (buffer read : List Char) : List (List Char) × List Char :=
  let parts := splitNl (buffer ++ read)
  (initSegs parts, lastSeg parts)

/-- Run the data handler over a whole sequence of already-decoded reads,
collecting every complete line processed and the final buffer contents
(which the end handler discards unprocessed). -/
def feedReads : List Char → List (List Char) → List (List Char) × List Char
  | buf, [] => ([], buf)
  | buf, r :: rs =>
    let first := feedRead buf r
    let rest := feedReads first.2 rs
    (first.1 ++ rest.1, rest.2)

/-- UTF-8 encoding of one scalar value, by its range. -/
def encodeCharUtf8 (c : Char) : List Nat :=
  let n := c.toNat
  if n < 0x80 then [n]
  else if n < 0x800 then [0xC0 + n / 64, 0x80 + n % 64]
  else if n < 0x10000 then
    [0xE0 + n / 4096, 0x80 + n / 64 % 64, 0x80 + n % 64]
  else
    [0xF0 + n / 262144, 0x80 + n / 4096 % 64, 0x80 + n / 64 % 64, 0x80 + n % 64]

/-- UTF-8 encoding of a character sequence. -/
def utf8Encode (cs : List Char) : List Nat :=
  cs.flatMap encodeCharUtf8

/-- The Unicode replacement character emitted for malformed bytes. -/
def REPLACEMENT_CHAR : Char := Char.ofNat 0xFFFD

/-- One-shot UTF-8 decode of a single read, as Buffer.toString performs:
well-formed sequences decode to their scalar; malformed bytes and
sequences truncated by the end of the read become U+FFFD under the
maximal-subpart policy. The decoder holds no state across reads. -/
def utf8DecodeChunk : List Nat → List Char
  | [] => []
  | b :: bs =>
    if b < 0x80 then Char.ofNat b :: utf8DecodeChunk bs
    else if b < 0xC2 then REPLACEMENT_CHAR :: utf8DecodeChunk bs
    else if b < 0xE0 then
      match bs with
      | [] => [REPLACEMENT_CHAR]
      | b1 :: rest =>
        if 0x80 ≤ b1 ∧ b1 < 0xC0 then
          Char.ofNat ((b - 0xC0) * 64 + (b1 - 0x80)) :: utf8DecodeChunk rest
        else REPLACEMENT_CHAR :: utf8DecodeChunk (b1 :: rest)
    else if b < 0xF0 then
      match bs with
      | [] => [REPLACEMENT_CHAR]
      | b1 :: rest =>
        if (if b = 0xE0 then 0xA0 ≤ b1 ∧ b1 < 0xC0
            else if b = 0xED then 0x80 ≤ b1 ∧ b1 < 0xA0
            else 0x80 ≤ b1 ∧ b1 < 0xC0) then
          match rest with
          | [] => [REPLACEMENT_CHAR]
          | b2 :: rest2 =>
            if 0x80 ≤ b2 ∧ b2 < 0xC0 then
              Char.ofNat ((b - 0xE0) * 4096 + (b1 - 0x80) * 64 + (b2 - 0x80)) ::
                utf8DecodeChunk rest2
            else REPLACEMENT_CHAR :: utf8DecodeChunk (b2 :: rest2)
        else REPLACEMENT_CHAR :: utf8DecodeChunk (b1 :: rest)
    else if b < 0xF5 then
      match bs with
      | [] => [REPLACEMENT_CHAR]
      | b1 :: rest =>
        if (if b = 0xF0 then 0x90 ≤ b1 ∧ b1 < 0xC0
            else if b = 0xF4 then 0x80 ≤ b1 ∧ b1 < 0x90
            else 0x80 ≤ b1 ∧ b1 < 0xC0) then
          match rest with
          | [] => [REPLACEMENT_CHAR]
          | b2 :: rest2 =>
            if 0x80 ≤ b2 ∧ b2 < 0xC0 then
              match rest2 with
              | [] => [REPLACEMENT_CHAR]
              | b3 :: rest3 =>
                if 0x80 ≤ b3 ∧ b3 < 0xC0 then
                  Char.ofNat ((b - 0xF0) * 262144 + (b1 - 0x80) * 4096 +
                      (b2 - 0x80) * 64 + (b3 - 0x80)) :: utf8DecodeChunk rest3
                else REPLACEMENT_CHAR :: utf8DecodeChunk (b3 :: rest3)
            else REPLACEMENT_CHAR :: utf8DecodeChunk (b2 :: rest2)
        else REPLACEMENT_CHAR :: utf8DecodeChunk (b1 :: rest)
    else REPLACEMENT_CHAR :: utf8DecodeChunk bs

/-- Run the data handler over raw byte reads: each read is decoded on its
own (buffer += chunk.toString()) and the decoded text fed through the
string buffer. -/
def feedByteReads (buffer : List Char) (reads : List (List Nat)) :
    List (List Char) × List Char :=
  feedReads buffer (reads.map utf8DecodeChunk)

/-- Per complete line: only lines with the literal data prefix matter; the
end-of-stream sentinel is skipped; the rest of the line is the payload
handed to the JSON decoder. -/
def linePayload (line : List Char) : Option (List Char) :=
  if (("data: ").toList).isPrefixOf line then
    let d := line.drop 6
    if d = ("[DONE]").toList then none else some d
  else none

/-- The frames obtained from a sequence of complete lines under an
arbitrary decoder (JSON.parse is abstracted as a decoder into any frame
type; decode failures are silently skipped). -/
def parsedFrames {α : Type} (decode : List Char → Option α)
    (lines : List (List Char)) : List α :=
  (lines.filterMap linePayload).filterMap decode

/-- The delta events the relay writes for a sequence of complete lines,
given a decoder into parsed chunks. -/
def relayLineEvents (decode : List Char → Option OpenAIStreamChunk)
    (lines : List (List Char)) : List AnthropicEvent :=
  (parsedFrames decode lines).flatMap chunkWrites

/-! ### Credential manager, from oauth.ts / config.ts -/

/-- The persisted Credential (TokenData in config.ts); expires_at is an
absolute timestamp in milliseconds. -/
structure TokenData where
  access_token : String
  refresh_token : String
  expires_at : Int
deriving DecidableEq

/-- The token endpoint response used by the refresh path (the id_token is
never read afterwards and is not carried). -/
structure TokenRefreshResponse where
  access_token : String
  refresh_token : String
  expires_in : Option Int := none
deriving DecidableEq

/-- Outcome of getValidAccessToken: the token returned to the caller (none
is the no-token outcome, never an exception), the Credential persisted by
saveTokens when a refresh succeeded, and whether a refresh was attempted
(whether refreshAccessToken was invoked). -/
structure TokenCheckOutcome where
  token : Option String
  saved : Option TokenData
  refreshAttempted : Bool
deriving DecidableEq

/-- getValidAccessToken, with the loaded credential, the clock and the
refresh exchange outcome as explicit parameters. Absent credential returns
no token; a credential within five minutes of expiry (or past it) triggers
a refresh whose success replaces and persists the credential and whose
failure degrades to no token; otherwise the stored access token is
returned. -/
def getValidAccessToken (stored : Option TokenData) (now : Int)
    (refreshAccessToken : String → Except String TokenRefreshResponse) :
    TokenCheckOutcome :=
  match stored with
  | none => ⟨none, none, false⟩
  | some tokens =>
    if tokens.expires_at - 5 * 60 * 1000 ≤ now then
      match refreshAccessToken tokens.refresh_token with
      | Except.ok refreshed =>
          let newTokens : TokenData :=
            ⟨refreshed.access_token, refreshed.refresh_token,
             now + (refreshed.expires_in.getD 3600) * 1000⟩
          ⟨some newTokens.access_token, some newTokens, true⟩
      | Except.error _ => ⟨none, none, true⟩
    else ⟨some tokens.access_token, none, false⟩

/-! ### Gateway chat path, from proxy.ts handleAnthropicRequest / forwardToCodex -/

/-- The structured error body of an error response. -/
structure ErrorBody where
  type : String
  message : String
deriving DecidableEq

/-- The 401 message of the inbound key check. -/
def INVALID_KEY_MESSAGE : String :=
  "Invalid API key. Please set ANTHROPIC_API_KEY environment variable."

/-- The 401 message when no upstream credential is available. -/
def NOT_AUTHENTICATED_MESSAGE : String :=
  "Not authenticated with Codex. Run \x27codex-proxy login\x27 first."

/-- String prefix test, by characters (same meaning as the JavaScript
startsWith on these ASCII strings, written so terms reduce). -/
def strStartsWith (s p : String) : Bool :=
  p.data.isPrefixOf s.data

/-- String drop, by characters (the JavaScript slice on these ASCII
strings). -/
def strDrop (s : String) (n : Nat) : String :=
  ⟨s.data.drop n⟩

/-- authHeader.startsWith("Bearer ") ? authHeader.slice(7) : "". -/
def extractApiKey (authHeader : String) : String :=
  if strStartsWith authHeader ("Bearer ") then strDrop authHeader 7 else ""

/-- Outcome of the chat path up to the upstream forward: an error response
written immediately, or the translated request handed to the forwarder
together with the effective streaming flag. -/
inductive ChatOutcome
  | errorResponse (status : Nat) (error : ErrorBody)
  | forwarded (openAIReq : OpenAIRequest) (streamFlag : Bool)
deriving DecidableEq

/-- handleAnthropicRequest on the /v1/messages path, with the inbound
authorization header, the upstream credential lookup result and the JSON
body parse result as explicit parameters. The key gate runs first and
returns 401 before the body is ever read; a missing upstream credential is
a second 401; a body that fails to parse is a 400; otherwise the request is
translated (with the fixed Codex instructions) and forwarded with the
stream flag defaulted to true. -/
def handleAnthropicRequest (authHeader : Option String)
    (codexToken : Option String) (body : Option AnthropicRequest) : ChatOutcome :=
  let apiKey := extractApiKey (authHeader.getD "")
  if apiKey = "" ∨ ¬ strStartsWith apiKey ("sk-ant-") then
    ChatOutcome.errorResponse 401 ⟨("authentication_error"), INVALID_KEY_MESSAGE⟩
  else
    match codexToken with
    | none => ChatOutcome.errorResponse 401 ⟨("authentication_error"), NOT_AUTHENTICATED_MESSAGE⟩
    | some _ =>
      match body with
      | none => ChatOutcome.errorResponse 400 ⟨("invalid_request_error"), ("Invalid request")⟩
      | some req =>
          ChatOutcome.forwarded
            (translateAnthropicToOpenAI req (some CODEX_SYSTEM_INSTRUCTIONS))
            (req.stream.getD true)

/-- The non-streaming JSON envelope written on success. -/
structure AnthropicMessageEnvelope where
  id : String
  type : String
  role : String
  content : List AnthropicContentBlock
  model : JsPropValue
  stop_reason : Option StopReason
  usage : Option AnthropicUsage
deriving DecidableEq

/-- The response forwardToCodex produces for the caller. -/
inductive ForwardResult
  | jsonResponse (status : Nat) (body : AnthropicMessageEnvelope)
  | upstreamError (status : Nat) (error : ErrorBody)
  | eventStream (status : Nat) (events : List AnthropicEvent)
deriving DecidableEq

/-- forwardToCodex, with the upstream status, the parse result of the
buffered non-streaming body and the parsed streaming chunks as explicit
parameters. The stream flag selects the path: false buffers and translates
a single JSON body (an unparsable body is a 502), true writes the
event-stream sequence. -/
def forwardToCodex (openAIReq : OpenAIRequest) (streamFlag : Bool)
    (upstreamStatus : Nat) (nonStreamParsed : Option OpenAIResponse)
    (streamChunks : List OpenAIStreamChunk) : ForwardResult :=
  if streamFlag then
    ForwardResult.eventStream upstreamStatus (relayStreamEvents streamChunks)
  else
    match nonStreamParsed with
    | some resp =>
        let a := translateOpenAIToAnthropic resp
        ForwardResult.jsonResponse upstreamStatus
          ⟨resp.id, ("message"), ("assistant"), a.content, openAIReq.model,
           a.stop_reason, a.usage⟩
    | none =>
        ForwardResult.upstreamError 502
          ⟨("api_error"), ("Error parsing upstream response")⟩

/-! ### Observers used to state the streaming claims -/

/-- A chunk whose first choice, when present, carries no finish reason
(a content-delta or heartbeat chunk). -/
def isDeltaChunk (c : OpenAIStreamChunk) : Bool :=
  match c.choices.head? with
  | none => true
  | some choice => choice.finish_reason.isNone

/-- A chunk whose first choice carries a finish reason. -/
def isFinishChunk (c : OpenAIStreamChunk) : Bool :=
  match c.choices.head? with
  | none => false
  | some choice => choice.finish_reason.isSome

/-- Spec-side description for the streaming contract: the non-empty delta
text a chunk carries, following the spec wording (N = number of chunks
carrying non-empty delta text), to be compared with what the relay writes. -/
def specNonEmptyDeltaText (c : OpenAIStreamChunk) : Option String :=
  match c.choices.head? with
  | none => none
  | some choice =>
    match choice.delta.content with
    | some (OpenAIContent.str s) => if s = "" then none else some s
    | _ => none

/-- Recognizer for content_block_delta events. -/
def isDeltaEvent : AnthropicEvent → Bool
  | AnthropicEvent.contentBlockDelta _ => true
  | _ => false

/-- Recognizer for message_delta events with any payload. -/
def isMessageDeltaEvent : AnthropicEvent → Bool
  | AnthropicEvent.messageDelta _ _ => true
  | _ => false

/-- Recognizer for content_block_stop events. -/
def isBlockStopEvent : AnthropicEvent → Bool
  | AnthropicEvent.contentBlockStop => true
  | _ => false

/-- Recognizer for message_stop events. -/
def isMessageStopEvent : AnthropicEvent → Bool
  | AnthropicEvent.messageStop => true
  | _ => false

/-! ### Lemmas about the per-chunk writes -/

/-- On a chunk without finish reason the relay writes exactly the
content_block_delta event of the non-empty delta text, when there is one. -/
theorem chunkWrites_delta (c : OpenAIStreamChunk) (h : isDeltaChunk c = true) :
    chunkWrites c = (specNonEmptyDeltaText c).toList.map AnthropicEvent.contentBlockDelta := by
  unfold isDeltaChunk at h
  unfold chunkWrites translateOpenAIStreamChunk specNonEmptyDeltaText
  cases hc : c.choices.head? with
  | none => simp
  | some choice =>
    rw [hc] at h
    simp only [Option.isNone_iff_eq_none] at h
    simp only [h, Option.isSome_none, Bool.false_eq_true, if_false]
    cases hd : choice.delta.content with
    | none => simp
    | some cc =>
      cases cc with
      | str s =>
        by_cases hs : s = "" <;> simp [hs, contentTruthy]
      | blocks bs => simp [contentTruthy]

/-- A chunk carrying a finish reason produces no immediate write: the
turn-complete signal is discarded by the relay. -/
theorem chunkWrites_finish (c : OpenAIStreamChunk) (h : isFinishChunk c = true) :
    chunkWrites c = [] := by
  unfold isFinishChunk at h
  unfold chunkWrites translateOpenAIStreamChunk
  cases hc : c.choices.head? with
  | none => simp
  | some choice =>
    rw [hc] at h
    simp only [] at h
    simp [h]

/-- Every event a chunk write produces is a content_block_delta event. -/
theorem chunkWrites_only_delta (c : OpenAIStreamChunk) (e : AnthropicEvent)
    (he : e ∈ chunkWrites c) : ∃ t, e = AnthropicEvent.contentBlockDelta t := by
  unfold chunkWrites at he
  split at he
  case _ t heq =>
    split at he
    · simp at he
    · simp at he
      exact ⟨t, he⟩
  case _ => simp at he

/-- The data-handler writes over a run of finish-free chunks are exactly the
delta events of the non-empty texts, in arrival order. -/
theorem bind_chunkWrites_delta (ds : List OpenAIStreamChunk)
    (h : ∀ c ∈ ds, isDeltaChunk c = true) :
    ds.flatMap chunkWrites =
      (ds.filterMap specNonEmptyDeltaText).map AnthropicEvent.contentBlockDelta := by
  induction ds with
  | nil => rfl
  | cons c cs ih =>
    rw [List.flatMap_cons, List.filterMap_cons,
        chunkWrites_delta c (h c (List.mem_cons_self c cs))]
    cases hs : specNonEmptyDeltaText c with
    | none => simpa using ih (fun x hx => h x (List.mem_cons_of_mem c hx))
    | some t => simpa using ih (fun x hx => h x (List.mem_cons_of_mem c hx))

/-- C1: for a well-formed upstream stream (finish-free chunks, then one
finish chunk, then stream end) the relay writes exactly one message_start,
one content_block_start, the content_block_delta events of the chunks
carrying non-empty delta text in arrival order, one content_block_stop, one
message_delta and one message_stop, in this order, even with zero deltas. -/
theorem stream_event_sequence_spec (ds : List OpenAIStreamChunk)
    (fc : OpenAIStreamChunk) (hds : ∀ c ∈ ds, isDeltaChunk c = true)
    (hfc : isFinishChunk fc = true) :
    relayStreamEvents (ds ++ [fc]) =
      [AnthropicEvent.messageStart, AnthropicEvent.contentBlockStart] ++
      (ds.filterMap specNonEmptyDeltaText).map AnthropicEvent.contentBlockDelta ++
      [AnthropicEvent.contentBlockStop, AnthropicEvent.messageDelta ("end_turn") 0,
       AnthropicEvent.messageStop] := by
  unfold relayStreamEvents openingEvents closingEvents
  rw [List.flatMap_append, bind_chunkWrites_delta ds hds]
  simp [List.flatMap_cons, chunkWrites_finish fc hfc]

/-- Sample chunk carrying one non-empty text delta. -/
def sampleDeltaChunk (t : String) : OpenAIStreamChunk :=
  { choices := [{ delta := { content := some (OpenAIContent.str t) } }] }

/-- Sample heartbeat chunk with no choices. -/
def heartbeatChunk : OpenAIStreamChunk := { choices := [] }

/-- Sample chunk carrying a stop finish reason. -/
def stopFinishChunk : OpenAIStreamChunk :=
  { choices := [{ delta := {}, finish_reason := some FinishReason.stop }] }

/-- Sample chunk carrying a length finish reason. -/
def lengthFinishChunk : OpenAIStreamChunk :=
  { choices := [{ delta := {}, finish_reason := some FinishReason.length }] }

/-- Witness for C1 at a concrete stream: one text chunk, one heartbeat,
then a finish chunk. -/
theorem stream_event_sequence_witness :
    ((∀ c ∈ [sampleDeltaChunk ("Hi"), heartbeatChunk], isDeltaChunk c = true) ∧
      isFinishChunk stopFinishChunk = true) ∧
    relayStreamEvents ([sampleDeltaChunk ("Hi"), heartbeatChunk] ++ [stopFinishChunk]) =
      [AnthropicEvent.messageStart, AnthropicEvent.contentBlockStart] ++
      ([sampleDeltaChunk ("Hi"), heartbeatChunk].filterMap specNonEmptyDeltaText).map
        AnthropicEvent.contentBlockDelta ++
      [AnthropicEvent.contentBlockStop, AnthropicEvent.messageDelta ("end_turn") 0,
       AnthropicEvent.messageStop] :=
  ⟨⟨by decide, by decide⟩, stream_event_sequence_spec _ _ (by decide) (by decide)⟩

/-! ### Claims about the closing sequence -/

/-- The data-handler writes never contain an event counted by a predicate
that is false on every content_block_delta event. -/
theorem countP_flatMap_chunkWrites_zero (p : AnthropicEvent → Bool)
    (hp : ∀ t, p (AnthropicEvent.contentBlockDelta t) = false)
    (chs : List OpenAIStreamChunk) : (chs.flatMap chunkWrites).countP p = 0 := by
  rw [List.countP_eq_zero]
  intro e he
  rw [List.mem_flatMap] at he
  obtain ⟨c, _, hec⟩ := he
  obtain ⟨t, rfl⟩ := chunkWrites_only_delta c e hec
  simp [hp]

/-- C9: a finish-reason chunk produces no immediate downstream write (the
turn-complete signal is discarded) and, for every upstream chunk sequence,
the closing content_block_stop, message_delta, message_stop appear exactly
once each, as a suffix written at upstream end after only delta events. -/
theorem finish_chunk_silent_closing_once (c : OpenAIStreamChunk)
    (chs : List OpenAIStreamChunk) (h : isFinishChunk c = true) :
    chunkWrites c = [] ∧
    (∃ ds, (∀ e ∈ ds, isDeltaEvent e = true) ∧
      relayStreamEvents chs =
        [AnthropicEvent.messageStart, AnthropicEvent.contentBlockStart] ++ ds ++
        [AnthropicEvent.contentBlockStop, AnthropicEvent.messageDelta ("end_turn") 0,
         AnthropicEvent.messageStop]) ∧
    (relayStreamEvents chs).countP isBlockStopEvent = 1 ∧
    (relayStreamEvents chs).countP isMessageDeltaEvent = 1 ∧
    (relayStreamEvents chs).countP isMessageStopEvent = 1 := by
  refine ⟨chunkWrites_finish c h, ⟨chs.flatMap chunkWrites, ?_, rfl⟩, ?_, ?_, ?_⟩
  · intro e he
    rw [List.mem_flatMap] at he
    obtain ⟨d, _, hed⟩ := he
    obtain ⟨t, rfl⟩ := chunkWrites_only_delta d e hed
    rfl
  all_goals
    unfold relayStreamEvents openingEvents closingEvents
    rw [List.countP_append, List.countP_append,
        countP_flatMap_chunkWrites_zero _ (fun t => rfl)]
    decide

/-- C6 as stated is false on the code: for an upstream stream finishing
with reason length, the closing message_delta still carries end_turn (the
relay hardcodes it), not the mapped max_tokens. -/
theorem message_delta_stop_reason_counterexample :
    relayStreamEvents [lengthFinishChunk] =
      [AnthropicEvent.messageStart, AnthropicEvent.contentBlockStart,
       AnthropicEvent.contentBlockStop, AnthropicEvent.messageDelta ("end_turn") 0,
       AnthropicEvent.messageStop] ∧
    AnthropicEvent.messageDelta ("end_turn") 0 ≠
      AnthropicEvent.messageDelta ("max_tokens") 0 := by
  constructor
  · decide
  · decide

/-- C6 amended: the message_delta event at the close of every stream always
carries stop reason end_turn and the usage placeholder 0, whatever the
upstream finish reason was; the translator maps any finish-reason chunk to
a bare turn-complete signal carrying no reason, which the relay discards. -/
theorem message_delta_stop_reason_amended (chs : List OpenAIStreamChunk)
    (r : String) (n : Nat) :
    (AnthropicEvent.messageDelta r n ∈ relayStreamEvents chs →
      r = ("end_turn") ∧ n = 0) ∧
    (∀ c, isFinishChunk c = true →
      translateOpenAIStreamChunk c = some StreamSignal.messageStop) := by
  constructor
  · intro hmem
    unfold relayStreamEvents openingEvents closingEvents at hmem
    rw [List.mem_append, List.mem_append] at hmem
    rcases hmem with (hop | hmid) | hcl
    · simp at hop
    · rw [List.mem_flatMap] at hmid
      obtain ⟨c, _, hec⟩ := hmid
      obtain ⟨t, ht⟩ := chunkWrites_only_delta c _ hec
      exact absurd ht (by simp)
    · simp at hcl
      exact ⟨hcl.1, hcl.2⟩
  · intro c h
    unfold isFinishChunk at h
    unfold translateOpenAIStreamChunk
    cases hc : c.choices.head? with
    | none => rw [hc] at h; simp at h
    | some choice =>
      rw [hc] at h
      simp only [] at h
      simp [h]

/-- Witness for the amended C6 at the empty stream and a length-finish
chunk. -/
theorem message_delta_stop_reason_witness :
    (("end_turn" : String) = ("end_turn") ∧ (0 : Nat) = 0) ∧
    translateOpenAIStreamChunk lengthFinishChunk = some StreamSignal.messageStop :=
  ⟨(message_delta_stop_reason_amended [] ("end_turn") 0).1 (by decide),
   (message_delta_stop_reason_amended [] ("end_turn") 0).2 lengthFinishChunk (by decide)⟩

/-! ### Split-invariance of the line buffering -/

/-- The splitter never returns an empty segment list. -/
theorem splitNl_ne_nil (s : List Char) : splitNl s ≠ [] := by
  induction s with
  | nil => simp [splitNl]
  | cons c cs ih =>
    simp only [splitNl]
    split
    · simp
    · cases h : splitNl cs with
      | nil => exact absurd h ih
      | cons l ls => simp [consFst]

/-- Prepending a character then merging commutes into one merge. -/
theorem consFst_mergeFst (c : Char) (x : List Char) (B : List (List Char)) :
    consFst c (mergeFst x B) = mergeFst (c :: x) B := by
  cases B <;> simp [consFst, mergeFst]

/-- Merging the empty segment is the identity on nonempty lists. -/
theorem mergeFst_nil (B : List (List Char)) (h : B ≠ []) : mergeFst [] B = B := by
  cases B with
  | nil => exact absurd rfl h
  | cons l ls => simp [mergeFst]

/-- initSegs over an unpopped head. -/
theorem initSegs_cons_cons (a b : List Char) (ls : List (List Char)) :
    initSegs (a :: b :: ls) = a :: initSegs (b :: ls) := rfl

/-- lastSeg skips an unpopped head. -/
theorem lastSeg_cons_cons (a b : List Char) (ls : List (List Char)) :
    lastSeg (a :: b :: ls) = lastSeg (b :: ls) := rfl

/-- How the splitter distributes over append: the complete part of the left
side, then the trailing left segment merged onto the split of the right. -/
theorem splitNl_append (a b : List Char) :
    splitNl (a ++ b) =
      initSegs (splitNl a) ++ mergeFst (lastSeg (splitNl a)) (splitNl b) := by
  induction a with
  | nil =>
    simp only [List.nil_append, splitNl, initSegs, lastSeg]
    exact (mergeFst_nil _ (splitNl_ne_nil b)).symm
  | cons c cs ih =>
    simp only [List.cons_append, splitNl, List.append_eq]
    by_cases hc : c = '\n'
    · rw [if_pos hc, if_pos hc, ih]
      cases h : splitNl cs with
      | nil => exact absurd h (splitNl_ne_nil cs)
      | cons l ls =>
        rw [initSegs_cons_cons, lastSeg_cons_cons]
        simp
    · rw [if_neg hc, if_neg hc, ih]
      cases h : splitNl cs with
      | nil => exact absurd h (splitNl_ne_nil cs)
      | cons l ls =>
        cases ls with
        | nil =>
          rw [show consFst c [l] = [c :: l] from rfl]
          simp only [initSegs, lastSeg, List.nil_append]
          exact consFst_mergeFst c l (splitNl b)
        | cons l2 ls2 =>
          simp [consFst, initSegs_cons_cons, lastSeg_cons_cons]

/-- The trailing segment of a split never contains a newline. -/
theorem lastSeg_splitNl (s : List Char) : ¬ '\n' ∈ lastSeg (splitNl s) := by
  induction s with
  | nil => simp [splitNl, lastSeg]
  | cons c cs ih =>
    simp only [splitNl]
    by_cases hc : c = '\n'
    · rw [if_pos hc]
      cases h : splitNl cs with
      | nil => exact absurd h (splitNl_ne_nil cs)
      | cons l ls =>
        rw [h] at ih
        rw [lastSeg_cons_cons]
        exact ih
    · rw [if_neg hc]
      cases h : splitNl cs with
      | nil => exact absurd h (splitNl_ne_nil cs)
      | cons l ls =>
        rw [h] at ih
        cases ls with
        | nil =>
          simp only [consFst, lastSeg] at *
          intro hm
          rcases List.mem_cons.mp hm with he | hm2
          · exact hc he.symm
          · exact ih hm2
        | cons l2 ls2 =>
          simp only [consFst, lastSeg_cons_cons] at *
          exact ih

/-- A newline-free string splits into a single segment. -/
theorem splitNl_no_nl (s : List Char) (h : ¬ '\n' ∈ s) : splitNl s = [s] := by
  induction s with
  | nil => rfl
  | cons c cs ih =>
    simp only [splitNl]
    have hc : ¬ (c = '\n') := by
      intro e
      rw [e] at h
      exact h (List.mem_cons_self _ _)
    rw [if_neg hc, ih (fun hm => h (List.mem_cons_of_mem c hm))]
    simp [consFst]

/-- initSegs over an append whose right part is nonempty. -/
theorem initSegs_append (X Y : List (List Char)) (h : Y ≠ []) :
    initSegs (X ++ Y) = X ++ initSegs Y := by
  induction X with
  | nil => rfl
  | cons a as ih =>
    cases has : as ++ Y with
    | nil =>
      rcases List.append_eq_nil.mp has with ⟨_, h2⟩
      exact absurd h2 h
    | cons b bs =>
      rw [List.cons_append, has, initSegs_cons_cons, ← has, ih]
      rfl

/-- lastSeg over an append whose right part is nonempty. -/
theorem lastSeg_append (X Y : List (List Char)) (h : Y ≠ []) :
    lastSeg (X ++ Y) = lastSeg Y := by
  induction X with
  | nil => rfl
  | cons a as ih =>
    cases has : as ++ Y with
    | nil =>
      rcases List.append_eq_nil.mp has with ⟨_, h2⟩
      exact absurd h2 h
    | cons b bs =>
      rw [List.cons_append, has, lastSeg_cons_cons, ← has, ih]

/-- Merging never empties a segment list. -/
theorem mergeFst_ne_nil (x : List Char) (B : List (List Char)) :
    mergeFst x B ≠ [] := by
  cases B <;> simp [mergeFst]

/-- Canonical form of the data handler run: starting from a newline-free
buffer, the complete lines processed are exactly the complete lines of the
concatenated bytes, and the final buffer is the trailing incomplete
segment — independent of how the bytes were split into reads. -/
theorem feedReads_eq (rs : List (List Char)) : ∀ buf : List Char, ¬ '\n' ∈ buf →
    feedReads buf rs =
      (initSegs (splitNl (buf ++ rs.flatten)), lastSeg (splitNl (buf ++ rs.flatten))) := by
  induction rs with
  | nil =>
    intro buf hbuf
    rw [feedReads, List.flatten_nil, List.append_nil, splitNl_no_nl buf hbuf]
    rfl
  | cons r rs ih =>
    intro buf hbuf
    rw [feedReads]
    simp only [feedRead]
    rw [ih _ (lastSeg_splitNl (buf ++ r))]
    have hkey : splitNl (buf ++ (r :: rs).flatten) =
        initSegs (splitNl (buf ++ r)) ++
          splitNl (lastSeg (splitNl (buf ++ r)) ++ rs.flatten) := by
      have h1 : buf ++ (r :: rs).flatten = (buf ++ r) ++ rs.flatten := by
        rw [List.flatten_cons, List.append_assoc]
      rw [h1, splitNl_append (buf ++ r) rs.flatten,
          splitNl_append (lastSeg (splitNl (buf ++ r))) rs.flatten,
          splitNl_no_nl _ (lastSeg_splitNl (buf ++ r))]
      rfl
    rw [hkey,
        initSegs_append _ _ (splitNl_ne_nil _),
        lastSeg_append _ _ (splitNl_ne_nil _)]


/-! ### The per-read UTF-8 decode on well-formed input -/

/-- Decoding one ASCII byte. -/
theorem utf8DecodeChunk_ascii (b : Nat) (bs : List Nat) (h : b < 0x80) :
    utf8DecodeChunk (b :: bs) = Char.ofNat b :: utf8DecodeChunk bs := by
  rw [utf8DecodeChunk.eq_def]
  simp only []
  rw [if_pos h]

/-- Decoding one well-formed two-byte sequence. -/
theorem utf8DecodeChunk_two (b b1 : Nat) (bs : List Nat)
    (hb : 0xC2 ≤ b) (hb2 : b < 0xE0) (h1 : 0x80 ≤ b1 ∧ b1 < 0xC0) :
    utf8DecodeChunk (b :: b1 :: bs) =
      Char.ofNat ((b - 0xC0) * 64 + (b1 - 0x80)) :: utf8DecodeChunk bs := by
  rw [utf8DecodeChunk.eq_def]
  simp only []
  rw [if_neg (by omega), if_neg (by omega), if_pos hb2, if_pos h1]

/-- Decoding one well-formed three-byte sequence. -/
theorem utf8DecodeChunk_three (b b1 b2 : Nat) (bs : List Nat)
    (hb : 0xE0 ≤ b) (hb2 : b < 0xF0)
    (h1 : if b = 0xE0 then 0xA0 ≤ b1 ∧ b1 < 0xC0
          else if b = 0xED then 0x80 ≤ b1 ∧ b1 < 0xA0
          else 0x80 ≤ b1 ∧ b1 < 0xC0)
    (h2 : 0x80 ≤ b2 ∧ b2 < 0xC0) :
    utf8DecodeChunk (b :: b1 :: b2 :: bs) =
      Char.ofNat ((b - 0xE0) * 4096 + (b1 - 0x80) * 64 + (b2 - 0x80)) ::
        utf8DecodeChunk bs := by
  rw [utf8DecodeChunk.eq_def]
  simp only []
  rw [if_neg (by omega), if_neg (by omega), if_neg (by omega), if_pos hb2,
      if_pos h1, if_pos h2]

/-- Decoding one well-formed four-byte sequence. -/
theorem utf8DecodeChunk_four (b b1 b2 b3 : Nat) (bs : List Nat)
    (hb : 0xF0 ≤ b) (hb2 : b < 0xF5)
    (h1 : if b = 0xF0 then 0x90 ≤ b1 ∧ b1 < 0xC0
          else if b = 0xF4 then 0x80 ≤ b1 ∧ b1 < 0x90
          else 0x80 ≤ b1 ∧ b1 < 0xC0)
    (h2 : 0x80 ≤ b2 ∧ b2 < 0xC0) (h3 : 0x80 ≤ b3 ∧ b3 < 0xC0) :
    utf8DecodeChunk (b :: b1 :: b2 :: b3 :: bs) =
      Char.ofNat ((b - 0xF0) * 262144 + (b1 - 0x80) * 4096 +
          (b2 - 0x80) * 64 + (b3 - 0x80)) :: utf8DecodeChunk bs := by
  rw [utf8DecodeChunk.eq_def]
  simp only []
  rw [if_neg (by omega), if_neg (by omega), if_neg (by omega),
      if_neg (by omega), if_pos hb2, if_pos h1, if_pos h2, if_pos h3]

/-- The decoder inverts the encoder on one character, whatever follows:
well-formed sequences decode to their scalar. -/
theorem utf8DecodeChunk_encodeChar (c : Char) (tail : List Nat) :
    utf8DecodeChunk (encodeCharUtf8 c ++ tail) = c :: utf8DecodeChunk tail := by
  have hval : c.toNat < 0xD800 ∨ (0xDFFF < c.toNat ∧ c.toNat < 0x110000) := c.valid
  have hofn : Char.ofNat c.toNat = c := Char.ofNat_toNat c
  by_cases h1 : c.toNat < 0x80
  · rw [show encodeCharUtf8 c = [c.toNat] from by simp [encodeCharUtf8, h1]]
    rw [List.cons_append, List.nil_append, utf8DecodeChunk_ascii _ _ h1, hofn]
  · by_cases h2 : c.toNat < 0x800
    · rw [show encodeCharUtf8 c = [0xC0 + c.toNat / 64, 0x80 + c.toNat % 64] from by
        simp [encodeCharUtf8, h1, h2]]
      rw [List.cons_append, List.cons_append, List.nil_append,
          utf8DecodeChunk_two _ _ _ (by omega) (by omega) (by omega)]
      rw [show (0xC0 + c.toNat / 64 - 0xC0) * 64 + (0x80 + c.toNat % 64 - 0x80)
            = c.toNat from by omega, hofn]
    · by_cases h3 : c.toNat < 0x10000
      · rw [show encodeCharUtf8 c =
            [0xE0 + c.toNat / 4096, 0x80 + c.toNat / 64 % 64, 0x80 + c.toNat % 64] from by
          simp [encodeCharUtf8, h1, h2, h3]]
        rw [List.cons_append, List.cons_append, List.cons_append, List.nil_append,
            utf8DecodeChunk_three _ _ _ _ (by omega) (by omega) ?hg (by omega)]
        case hg =>
          split
          · next he =>
            have : c.toNat / 4096 = 0 := by omega
            constructor <;> omega
          · split
            · next hne he =>
              have h13 : c.toNat / 4096 = 13 := by omega
              rcases hval with hv | hv
              · constructor <;> omega
              · omega
            · next hne hne2 => constructor <;> omega
        rw [show (0xE0 + c.toNat / 4096 - 0xE0) * 4096 +
              (0x80 + c.toNat / 64 % 64 - 0x80) * 64 + (0x80 + c.toNat % 64 - 0x80)
              = c.toNat from by omega, hofn]
      · have h4 : c.toNat < 0x110000 := by rcases hval with hv | hv <;> omega
        rw [show encodeCharUtf8 c =
            [0xF0 + c.toNat / 262144, 0x80 + c.toNat / 4096 % 64,
             0x80 + c.toNat / 64 % 64, 0x80 + c.toNat % 64] from by
          simp [encodeCharUtf8, h1, h2, h3]]
        rw [List.cons_append, List.cons_append, List.cons_append, List.cons_append,
            List.nil_append,
            utf8DecodeChunk_four _ _ _ _ _ (by omega) (by omega) ?hg (by omega) (by omega)]
        case hg =>
          split
          · next he =>
            have : c.toNat / 262144 = 0 := by omega
            constructor <;> omega
          · split
            · next hne he =>
              have : c.toNat / 262144 = 4 := by omega
              constructor <;> omega
            · next hne hne2 => constructor <;> omega
        rw [show (0xF0 + c.toNat / 262144 - 0xF0) * 262144 +
              (0x80 + c.toNat / 4096 % 64 - 0x80) * 4096 +
              (0x80 + c.toNat / 64 % 64 - 0x80) * 64 + (0x80 + c.toNat % 64 - 0x80)
              = c.toNat from by omega, hofn]

/-- The decoder inverts the encoder on a whole character sequence,
whatever follows. -/
theorem utf8DecodeChunk_encode_append (cs : List Char) (tail : List Nat) :
    utf8DecodeChunk (utf8Encode cs ++ tail) = cs ++ utf8DecodeChunk tail := by
  induction cs with
  | nil => simp [utf8Encode]
  | cons c rest ih =>
    rw [utf8Encode, List.flatMap_cons, List.append_assoc,
        utf8DecodeChunk_encodeChar,
        show rest.flatMap encodeCharUtf8 = utf8Encode rest from rfl, ih]
    rfl

/-- When every read is a well-formed UTF-8 encoding (the split falls on
character boundaries), per-read decoding agrees with decoding the
concatenated bytes. -/
theorem utf8DecodeChunk_flatten (rs : List (List Nat))
    (h : ∀ r ∈ rs, ∃ cs, r = utf8Encode cs) :
    (rs.map utf8DecodeChunk).flatten = utf8DecodeChunk rs.flatten := by
  induction rs with
  | nil => rfl
  | cons r rest ih =>
    obtain ⟨cs, rfl⟩ := h _ (List.mem_cons_self _ _)
    rw [List.map_cons, List.flatten_cons, List.flatten_cons,
        utf8DecodeChunk_encode_append,
        ih (fun x hx => h x (List.mem_cons_of_mem _ hx))]
    congr 1
    have h2 := utf8DecodeChunk_encode_append cs []
    rw [List.append_nil, show utf8DecodeChunk [] = ([] : List Char) from rfl,
        List.append_nil] at h2
    exact h2

/-! ### Split invariance and its failure at byte level -/

/-- The one streaming line with payload \x7b"a":"\u00E9"\x7d delivered as two
reads split inside the two-byte encoding of the character U+00E9. -/
def splitByteReads : List (List Nat) :=
  [ utf8Encode (("data: \x7b\"a\":\"").toList) ++ [0xC3]
  , [0xA9] ++ utf8Encode (("\"\x7d\n").toList) ]

/-- The same byte sequence delivered as one read. -/
def wholeByteRead : List (List Nat) :=
  [ utf8Encode (("data: \x7b\"a\":\"\u00E9\"\x7d\n").toList) ]

/-- The same byte sequence delivered as two reads split between two
characters. -/
def cleanSplitByteReads : List (List Nat) :=
  [ utf8Encode (("data: \x7b\"a\":\"\u00E9").toList)
  , utf8Encode (("\"\x7d\n").toList) ]

/-- C2 as stated is false on the code: the same upstream byte sequence,
split across two reads inside a multi-byte character, is decoded per read
with U+FFFD replacement characters, so the processed lines and the parsed
frames differ from the unsplit delivery of those same bytes. -/
theorem stream_byte_split_counterexample :
    splitByteReads.flatten = wholeByteRead.flatten ∧
    feedByteReads [] splitByteReads ≠ feedByteReads [] wholeByteRead ∧
    parsedFrames (fun l => some l) (feedByteReads [] splitByteReads).1 ≠
      parsedFrames (fun l => some l) (feedByteReads [] wholeByteRead).1 := by
  refine ⟨by decide, by decide, by decide⟩

/-- C2 amended: for deliveries of the same upstream byte sequence whose
read boundaries all fall on UTF-8 character boundaries (every read is a
well-formed encoding), the complete lines processed, the frames parsed
from them under any decoder, and the delta events emitted are independent
of the split; a boundary inside a multi-byte character voids this by
introducing replacement characters. -/
theorem stream_byte_split_invariance {α : Type} (decode : List Char → Option α)
    (decodeChunk : List Char → Option OpenAIStreamChunk)
    (rs ss : List (List Nat))
    (hrs : ∀ r ∈ rs, ∃ cs, r = utf8Encode cs)
    (hss : ∀ r ∈ ss, ∃ cs, r = utf8Encode cs)
    (h : rs.flatten = ss.flatten) :
    feedByteReads [] rs = feedByteReads [] ss ∧
    parsedFrames decode (feedByteReads [] rs).1 =
      parsedFrames decode (feedByteReads [] ss).1 ∧
    relayLineEvents decodeChunk (feedByteReads [] rs).1 =
      relayLineEvents decodeChunk (feedByteReads [] ss).1 := by
  have h1 : feedByteReads [] rs = feedByteReads [] ss := by
    unfold feedByteReads
    rw [feedReads_eq _ [] (by simp), feedReads_eq _ [] (by simp)]
    simp only [List.nil_append]
    rw [utf8DecodeChunk_flatten rs hrs, utf8DecodeChunk_flatten ss hss, h]
  exact ⟨h1, by rw [h1], by rw [h1]⟩

/-- Witness for the amended C2: the same line split between characters is
processed identically to the unsplit delivery and yields exactly one
parsed frame carrying the full payload. -/
theorem stream_byte_split_invariance_witness :
    cleanSplitByteReads.flatten = wholeByteRead.flatten ∧
    feedByteReads [] cleanSplitByteReads = feedByteReads [] wholeByteRead ∧
    parsedFrames (fun l => some l) (feedByteReads [] cleanSplitByteReads).1 =
      [("\x7b\"a\":\"\u00E9\"\x7d").toList] :=
  ⟨by decide,
   (stream_byte_split_invariance (fun l => some l) (fun _ => none)
      cleanSplitByteReads wholeByteRead
      (by
        intro r hr
        simp only [cleanSplitByteReads, List.mem_cons, List.not_mem_nil,
          or_false] at hr
        rcases hr with rfl | rfl
        · exact ⟨("data: \x7b\"a\":\"\u00E9").toList, rfl⟩
        · exact ⟨("\"\x7d\n").toList, rfl⟩)
      (by
        intro r hr
        simp only [wholeByteRead, List.mem_cons, List.not_mem_nil,
          or_false] at hr
        rcases hr with rfl
        exact ⟨("data: \x7b\"a\":\"\u00E9\"\x7d\n").toList, rfl⟩)
      (by decide)).1,
   by decide⟩

/-! ### Claims about request translation -/

/-- C3 as stated is false on the code: a present but empty system
instruction is dropped by the truthiness check, not inserted as a first
system message. -/
theorem system_message_counterexample :
    (translateAnthropicToOpenAI
      { model := ("claude-3-opus-20240229")
      , messages := [⟨AnthropicRole.user, AnthropicContent.str ("Y")⟩]
      , system := some ("") } none).messages =
      [⟨OpenAIRole.user, OpenAIContent.str ("Y")⟩] ∧
    (translateAnthropicToOpenAI
      { model := ("claude-3-opus-20240229")
      , messages := [⟨AnthropicRole.user, AnthropicContent.str ("Y")⟩]
      , system := some ("") } none).messages ≠
      [⟨OpenAIRole.system, OpenAIContent.str ("")⟩,
       ⟨OpenAIRole.user, OpenAIContent.str ("Y")⟩] := by
  constructor
  · decide
  · decide

/-- C3 amended: for every Source Request with a non-empty system
instruction X and one user message with plain string content Y, the
translated message list is exactly system X then user Y; in general a
present non-empty system instruction becomes the first message with role
system followed by the translated messages, and plain-string contents are
copied verbatim under the role mapping. -/
theorem system_message_translation (req : AnthropicRequest)
    (inst : Option String) (X Y : String) (hX : ¬ X = "") :
    (req.system = some X →
      req.messages = [⟨AnthropicRole.user, AnthropicContent.str Y⟩] →
      (translateAnthropicToOpenAI req inst).messages =
        [⟨OpenAIRole.system, OpenAIContent.str X⟩,
         ⟨OpenAIRole.user, OpenAIContent.str Y⟩]) ∧
    (req.system = some X →
      (translateAnthropicToOpenAI req inst).messages =
        ⟨OpenAIRole.system, OpenAIContent.str X⟩ ::
          req.messages.map translateAnthropicMessage) ∧
    (∀ r s, translateAnthropicMessage ⟨r, AnthropicContent.str s⟩ =
      ⟨mapRole r, OpenAIContent.str s⟩) := by
  have hgen : req.system = some X →
      (translateAnthropicToOpenAI req inst).messages =
        ⟨OpenAIRole.system, OpenAIContent.str X⟩ ::
          req.messages.map translateAnthropicMessage := by
    intro hs
    unfold translateAnthropicToOpenAI
    simp [hs, hX]
  refine ⟨?_, hgen, fun r s => rfl⟩
  intro hs hm
  rw [hgen hs, hm]
  rfl

/-- Witness for the amended C3 at a concrete request. -/
theorem system_message_translation_witness :
    (¬ ("X" : String) = "") ∧
    (translateAnthropicToOpenAI
      { model := ("claude-3-opus-20240229")
      , messages := [⟨AnthropicRole.user, AnthropicContent.str ("Y")⟩]
      , system := some ("X") } none).messages =
      [⟨OpenAIRole.system, OpenAIContent.str ("X")⟩,
       ⟨OpenAIRole.user, OpenAIContent.str ("Y")⟩] :=
  ⟨by decide,
   (system_message_translation
      { model := ("claude-3-opus-20240229")
      , messages := [⟨AnthropicRole.user, AnthropicContent.str ("Y")⟩]
      , system := some ("X") } none ("X") ("Y") (by decide)).1 rfl rfl⟩

/-- C4 as stated is false on the code: the identifier toString is not
listed in the static table, yet MODEL_MAP access returns the inherited
truthy Object.prototype member — a function, not the default target
string. -/
theorem model_mapping_counterexample :
    MODEL_MAP.lookup ("toString") = none ∧
    mapModel ("toString") = JsPropValue.inherited ("toString") ∧
    JsPropValue.inherited ("toString") ≠ JsPropValue.str ("gpt-5.2-codex") := by
  refine ⟨by decide, by decide, by decide⟩

/-- C4 amended: mapping never raises an error; a known identifier returns
its configured target string; an identifier neither listed nor naming an
Object.prototype member returns the default target; but an unlisted
identifier that names an Object.prototype member (toString, valueOf,
hasOwnProperty, proto accessor, ...) returns that inherited truthy member
instead of the default; every input yields one of these three shapes. -/
theorem model_mapping_amended (m : String)
    (hmiss : MODEL_MAP.lookup m = none) :
    mapModel ("claude-sonnet-4-5-20250929") = JsPropValue.str ("gpt-5.2-codex") ∧
    (¬ m ∈ OBJECT_PROTOTYPE_KEYS → mapModel m = JsPropValue.str ("gpt-5.2-codex")) ∧
    (m ∈ OBJECT_PROTOTYPE_KEYS → mapModel m = JsPropValue.inherited m) ∧
    (∀ m2 : String, mapModel m2 = JsPropValue.str ("gpt-5.2-codex") ∨
      mapModel m2 = JsPropValue.str ("gpt-5.1-codex-mini") ∨
      mapModel m2 = JsPropValue.inherited m2) := by
  refine ⟨by decide, ?_, ?_, ?_⟩
  · intro hnp
    simp [mapModel, jsRecordGet, jsTruthy, hmiss, hnp]
    decide
  · intro hp
    simp [mapModel, jsRecordGet, jsTruthy, hmiss, hp]
  · intro m2
    unfold mapModel jsRecordGet
    cases h : MODEL_MAP.lookup m2 with
    | none =>
      by_cases hp : m2 ∈ OBJECT_PROTOTYPE_KEYS
      · right; right
        simp [jsTruthy, hp]
      · left
        simp [jsTruthy, hp]
        decide
    | some v =>
      have hv : v = ("gpt-5.2-codex") ∨ v = ("gpt-5.1-codex-mini") := by
        simp only [ MODEL_MAP, List.lookup] at h
        repeat' split at h
        all_goals simp_all
      rcases hv with h1 | h1 <;> rw [h1] <;> simp [jsTruthy]

/-- Witness for the amended C4 at a concrete unknown identifier and a
concrete prototype-member identifier. -/
theorem model_mapping_amended_witness :
    (MODEL_MAP.lookup ("claude-9-experimental") = none ∧
      ¬ ("claude-9-experimental" : String) ∈ OBJECT_PROTOTYPE_KEYS ∧
      mapModel ("claude-9-experimental") = JsPropValue.str ("gpt-5.2-codex")) ∧
    (MODEL_MAP.lookup ("hasOwnProperty") = none ∧
      ("hasOwnProperty" : String) ∈ OBJECT_PROTOTYPE_KEYS ∧
      mapModel ("hasOwnProperty") = JsPropValue.inherited ("hasOwnProperty")) :=
  ⟨⟨by decide, by decide,
    (model_mapping_amended ("claude-9-experimental") (by decide)).2.1 (by decide)⟩,
   ⟨by decide, by decide,
    (model_mapping_amended ("hasOwnProperty") (by decide)).2.2.1 (by decide)⟩⟩

/-! ### Claim about non-streaming response translation -/

/-- C8: the non-streaming translator maps the first choice finish reason by
the table stop to end_turn, length to max_tokens, anything else to none,
renames the usage counters prompt to input and completion to output, and on
zero choices returns empty content and a null stop reason (and no usage)
instead of an error. -/
theorem translate_response_spec (resp : OpenAIResponse) :
    (resp.choices = [] → translateOpenAIToAnthropic resp = ⟨[], none, none⟩) ∧
    (∀ choice rest, resp.choices = choice :: rest →
      ((choice.finish_reason = some FinishReason.stop →
          (translateOpenAIToAnthropic resp).stop_reason = some StopReason.end_turn) ∧
       (choice.finish_reason = some FinishReason.length →
          (translateOpenAIToAnthropic resp).stop_reason = some StopReason.max_tokens) ∧
       (choice.finish_reason = some FinishReason.tool_calls →
          (translateOpenAIToAnthropic resp).stop_reason = none) ∧
       (choice.finish_reason = none →
          (translateOpenAIToAnthropic resp).stop_reason = none) ∧
       (∀ u, resp.usage = some u →
          (translateOpenAIToAnthropic resp).usage =
            some ⟨u.prompt_tokens, u.completion_tokens⟩))) := by
  constructor
  · intro h
    unfold translateOpenAIToAnthropic
    rw [h]
    rfl
  · intro choice rest h
    refine ⟨?_, ?_, ?_, ?_, ?_⟩ <;>
      first
      | · intro hf
          unfold translateOpenAIToAnthropic
          rw [h]
          simp [hf]
      | · intro u hu
          unfold translateOpenAIToAnthropic
          rw [h]
          simp [hu]

/-- Witness for C8 at a concrete response with a length finish and usage. -/
theorem translate_response_witness :
    (({ choices := [] } : OpenAIResponse).choices = [] ∧
      translateOpenAIToAnthropic { choices := [] } = ⟨[], none, none⟩) ∧
    (translateOpenAIToAnthropic
      { choices := [{ message := ⟨OpenAIRole.assistant, OpenAIContent.str ("hi")⟩
                    , finish_reason := some FinishReason.length }]
      , usage := some ⟨3, 5, 8⟩ }).stop_reason = some StopReason.max_tokens ∧
    (translateOpenAIToAnthropic
      { choices := [{ message := ⟨OpenAIRole.assistant, OpenAIContent.str ("hi")⟩
                    , finish_reason := some FinishReason.length }]
      , usage := some ⟨3, 5, 8⟩ }).usage = some ⟨3, 5⟩ :=
  ⟨⟨rfl, (translate_response_spec { choices := [] }).1 rfl⟩,
   ((translate_response_spec _).2 _ _ rfl).2.1 rfl,
   ((translate_response_spec _).2 _ _ rfl).2.2.2.2 _ rfl⟩

/-! ### Claim about the credential manager -/

/-- C5: with no loaded Credential the token check returns absent without
error; a Credential at or past the five-minute refresh margin triggers a
refresh attempt, whose success replaces and persists the Credential and
returns the fresh access token and whose failure returns absent instead of
throwing; a Credential outside the margin returns the stored token with no
refresh; in particular expires_at = now + 4 minutes triggers a refresh
attempt. -/
theorem get_valid_access_token_spec (now : Int)
    (refresh : String → Except String TokenRefreshResponse) :
    getValidAccessToken none now refresh = ⟨none, none, false⟩ ∧
    (∀ tokens : TokenData, tokens.expires_at - 5 * 60 * 1000 ≤ now →
      ((getValidAccessToken (some tokens) now refresh).refreshAttempted = true ∧
       (∀ r, refresh tokens.refresh_token = Except.ok r →
          getValidAccessToken (some tokens) now refresh =
            ⟨some r.access_token,
             some ⟨r.access_token, r.refresh_token,
                   now + (r.expires_in.getD 3600) * 1000⟩,
             true⟩) ∧
       (∀ e, refresh tokens.refresh_token = Except.error e →
          getValidAccessToken (some tokens) now refresh = ⟨none, none, true⟩))) ∧
    (∀ tokens : TokenData, now < tokens.expires_at - 5 * 60 * 1000 →
      getValidAccessToken (some tokens) now refresh =
        ⟨some tokens.access_token, none, false⟩) ∧
    (∀ tokens : TokenData, tokens.expires_at = now + 4 * 60 * 1000 →
      (getValidAccessToken (some tokens) now refresh).refreshAttempted = true) := by
  refine ⟨rfl, ?_, ?_, ?_⟩
  · intro tokens hdue
    simp only [getValidAccessToken]
    rw [if_pos hdue]
    refine ⟨?_, ?_, ?_⟩
    · cases hr : refresh tokens.refresh_token <;> simp [hr]
    · intro r hr
      rw [hr]
    · intro e hr
      rw [hr]
  · intro tokens hnot
    simp only [getValidAccessToken]
    rw [if_neg (by omega)]
  · intro tokens hexp
    have hdue : tokens.expires_at - 5 * 60 * 1000 ≤ now := by omega
    simp only [getValidAccessToken]
    rw [if_pos hdue]
    cases hr : refresh tokens.refresh_token <;> simp [hr]

/-- Witness for C5: a credential four minutes from expiry attempts a
refresh on both refresh outcomes, an absent credential yields absent, a
fresh credential is returned unchanged. -/
theorem get_valid_access_token_witness :
    getValidAccessToken none 0 (fun _ => Except.error ("down")) = ⟨none, none, false⟩ ∧
    ((⟨("a"), ("r"), 240000⟩ : TokenData).expires_at = 0 + 4 * 60 * 1000 ∧
      (getValidAccessToken (some ⟨("a"), ("r"), 240000⟩) 0
        (fun _ => Except.error ("down"))).refreshAttempted = true) ∧
    ((0 : Int) < (⟨("a"), ("r"), 10000000⟩ : TokenData).expires_at - 5 * 60 * 1000 ∧
      getValidAccessToken (some ⟨("a"), ("r"), 10000000⟩) 0
        (fun _ => Except.error ("down")) = ⟨some ("a"), none, false⟩) :=
  ⟨(get_valid_access_token_spec 0 (fun _ => Except.error ("down"))).1,
   ⟨by decide,
    (get_valid_access_token_spec 0 (fun _ => Except.error ("down"))).2.2.2
      ⟨("a"), ("r"), 240000⟩ (by decide)⟩,
   ⟨by decide,
    (get_valid_access_token_spec 0 (fun _ => Except.error ("down"))).2.2.1
      ⟨("a"), ("r"), 10000000⟩ (by decide)⟩⟩

/-! ### Claims about the gateway chat path -/

/-- C7: an inbound bearer credential not starting with the literal prefix
sk-ant- is rejected with 401 and type authentication_error whatever the
rest of the request holds (no translation, no upstream call); a credential
with the prefix passes the gate and, given an upstream token and a parsed
body, reaches translation. -/
theorem chat_auth_gate_spec (authHeader : Option String)
    (codexToken : Option String) (body : Option AnthropicRequest) :
    (¬ strStartsWith (extractApiKey (authHeader.getD "")) ("sk-ant-") = true →
        handleAnthropicRequest authHeader codexToken body =
          ChatOutcome.errorResponse 401
            ⟨("authentication_error"), INVALID_KEY_MESSAGE⟩) ∧
    (strStartsWith (extractApiKey (authHeader.getD "")) ("sk-ant-") = true →
      ∀ t req, codexToken = some t → body = some req →
        handleAnthropicRequest authHeader codexToken body =
          ChatOutcome.forwarded
            (translateAnthropicToOpenAI req (some CODEX_SYSTEM_INSTRUCTIONS))
            (req.stream.getD true)) := by
  constructor
  · intro h
    simp only [handleAnthropicRequest]
    rw [if_pos (Or.inr h)]
  · intro h t req ht hreq
    have hne : ¬ (extractApiKey (authHeader.getD "") = "" ∨
        ¬ strStartsWith (extractApiKey (authHeader.getD "")) ("sk-ant-") = true) := by
      rintro (he | hn)
      · rw [he] at h
        exact absurd h (by decide)
      · exact hn h
    simp only [handleAnthropicRequest]
    rw [if_neg hne, ht, hreq]

/-- Witness for C7: a malformed credential is rejected, a prefixed one is
forwarded to translation. -/
theorem chat_auth_gate_witness :
    (¬ strStartsWith (extractApiKey ((some ("Bearer wrong")).getD "")) ("sk-ant-") = true ∧
      handleAnthropicRequest (some ("Bearer wrong")) none none =
        ChatOutcome.errorResponse 401
          ⟨("authentication_error"), INVALID_KEY_MESSAGE⟩) ∧
    (strStartsWith (extractApiKey ((some ("Bearer sk-ant-api03-k")).getD "")) ("sk-ant-") = true ∧
      handleAnthropicRequest (some ("Bearer sk-ant-api03-k")) (some ("tok"))
          (some { model := ("m"), messages := [] }) =
        ChatOutcome.forwarded
          (translateAnthropicToOpenAI { model := ("m"), messages := [] }
            (some CODEX_SYSTEM_INSTRUCTIONS))
          true) :=
  ⟨⟨by decide,
    (chat_auth_gate_spec (some ("Bearer wrong")) none none).1 (by decide)⟩,
   ⟨by decide,
    (chat_auth_gate_spec (some ("Bearer sk-ant-api03-k")) (some ("tok"))
        (some { model := ("m"), messages := [] })).2 (by decide) ("tok")
      { model := ("m"), messages := [] } rfl rfl⟩⟩

/-- C10: with the streaming flag absent, the translator sets stream to
true, the chat path forwards with streaming flag true, and the forwarder
takes the event-stream path rather than the single-JSON path. -/
theorem stream_default_true (req : AnthropicRequest) (inst : Option String)
    (tok : String) (status : Nat) (parsed : Option OpenAIResponse)
    (chunks : List OpenAIStreamChunk) (h : req.stream = none) :
    (translateAnthropicToOpenAI req inst).stream = some true ∧
    handleAnthropicRequest (some ("Bearer sk-ant-x")) (some tok) (some req) =
      ChatOutcome.forwarded
        (translateAnthropicToOpenAI req (some CODEX_SYSTEM_INSTRUCTIONS)) true ∧
    forwardToCodex (translateAnthropicToOpenAI req inst) true status parsed chunks =
      ForwardResult.eventStream status (relayStreamEvents chunks) := by
  refine ⟨?_, ?_, rfl⟩
  · simp [translateAnthropicToOpenAI, h]
  · simp only [handleAnthropicRequest]
    rw [if_neg (by decide)]
    simp [h]

/-- Witness for C10 at a concrete request without a stream flag. -/
theorem stream_default_true_witness :
    ({ model := ("m"), messages := [] } : AnthropicRequest).stream = none ∧
    (translateAnthropicToOpenAI { model := ("m"), messages := [] } none).stream =
      some true ∧
    forwardToCodex (translateAnthropicToOpenAI { model := ("m"), messages := [] } none)
        true 200 none [] =
      ForwardResult.eventStream 200 (relayStreamEvents []) :=
  ⟨rfl,
   (stream_default_true { model := ("m"), messages := [] } none ("t") 200 none []
      rfl).1,
   (stream_default_true { model := ("m"), messages := [] } none ("t") 200 none []
      rfl).2.2⟩

/-- Witness for C9 at a concrete finish chunk and a stream containing two
finish chunks: the closing triple still appears exactly once. -/
theorem finish_chunk_silent_closing_witness :
    isFinishChunk stopFinishChunk = true ∧
    chunkWrites stopFinishChunk = [] ∧
    (relayStreamEvents [stopFinishChunk, lengthFinishChunk]).countP
      isMessageDeltaEvent = 1 :=
  ⟨by decide,
   (finish_chunk_silent_closing_once stopFinishChunk
      [stopFinishChunk, lengthFinishChunk] (by decide)).1,
   (finish_chunk_silent_closing_once stopFinishChunk
      [stopFinishChunk, lengthFinishChunk] (by decide)).2.2.2.1⟩
